import Mathlib

/-!
Verification of the chat synchronization and read-state subsystem of the
task-marketplace web application, as implemented in `src/pages/Chat.tsx`
and the `ChatBox` component.

The embedding is shallow: the hosted relational store is a record of lists
(`Store`), each query/insert/update is a pure function on it, and the React
component state (`messages`, `chats`, `activeChat`, composer fields) is
passed explicitly. Database row ids are strings (the backend assigns uuid
strings), timestamps are naturals.
-/

/-- A row of the `messages` table: chat reference, sender, receiver,
text content, timestamp, read flag. -/
structure StoredMessage where
  id : String
  chat_id : String
  sender_id : String
  receiver_id : String
  content : String
  timestamp : Nat
  read : Bool
deriving Repr, DecidableEq

/-- A row of the `chats` table: two participant ids and a creation time. -/
structure StoredChat where
  id : String
  user1_id : String
  user2_id : String
  created_at : Nat
deriving Repr, DecidableEq

/-- A row of the `profiles` table (only the column the chat page reads). -/
structure Profile where
  id : String
  username : String
deriving Repr, DecidableEq

/-- The hosted relational store as seen by the chat subsystem. -/
structure Store where
  chats : List StoredChat
  messages : List StoredMessage
  profiles : List Profile
deriving Repr, DecidableEq

/-- The lookup `supabase.from('profiles').select('username').eq('id', uid).single()`:
the first profile row with the given id, if any. -/
def lookupProfile (s : Store) (uid : String) : Option Profile :=
  s.profiles.find? (fun p => p.id = uid)

/-- Display name `participantData?.username || 'Unknown User'`: a failed lookup yields
the placeholder, and (JS falsiness of the empty string) so does an empty
username. -/
def displayName (s : Store) (uid : String) : String :=
  match lookupProfile s uid with
  | none => "Unknown User"
  | some p => if p.username = "" then "Unknown User" else p.username

/-- One element of the embedded `messages:messages(content, timestamp, read)`
join in `fetchChats`. Only the three listed columns are selected, so reading
`receiver_id` off such a row in JS yields `undefined`; we model the absent
column as `none`. -/
structure JoinedMsg where
  content : String
  timestamp : Nat
  read : Bool
  receiver_id : Option String
deriving Repr, DecidableEq

/-- The projection applied by the `fetchChats` select string to each joined
message row: it keeps `content`, `timestamp`, `read` and drops every other
column (`receiver_id` becomes `undefined`, i.e. `none`). -/
def selectJoinedMsg (m : StoredMessage) : JoinedMsg :=
  { content := m.content, timestamp := m.timestamp, read := m.read,
    receiver_id := none }

/-- The `ChatType` record as produced by `fetchChats`. -/
structure ChatEntry where
  id : String
  participantId : String
  participantName : String
  lastMessage : Option String
  lastMessageTime : Option Nat
  unreadCount : Nat
deriving Repr, DecidableEq

/-- The body of the `.map` in `fetchChats`: resolve the other participant,
look up their display name, take `messages[0]` of the embedded join as the
preview (the join requests no ordering, so the store's row order is used),
and count `!msg.read && msg.receiver_id === user.id` — where `receiver_id`
was not selected by the join. -/
def processChat (s : Store) (uid : String) (c : StoredChat) : ChatEntry :=
  let participantId := if c.user1_id = uid then c.user2_id else c.user1_id
  let participantName := displayName s participantId
  let msgs := (s.messages.filter (fun m => m.chat_id = c.id)).map selectJoinedMsg
  let lastMessage := msgs.head?
  let unreadCount :=
    (msgs.filter (fun m => !m.read && m.receiver_id == some uid)).length
  { id := c.id, participantId := participantId,
    participantName := participantName,
    lastMessage := lastMessage.map (fun m => m.content),
    lastMessageTime := lastMessage.map (fun m => m.timestamp),
    unreadCount := unreadCount }

/-- The `chats` query of `fetchChats`:
`.or(user1_id.eq.uid, user2_id.eq.uid).order('created_at', ascending false)`. -/
def chatsForUser (s : Store) (uid : String) : List StoredChat :=
  (s.chats.filter (fun c => c.user1_id = uid || c.user2_id = uid)).insertionSort
    (fun a b => b.created_at ≤ a.created_at)

/-- The `fetchChats` function from `Chat.tsx`: the processed conversation list for a
signed-in user. -/
def fetchChats (s : Store) (uid : String) : List ChatEntry :=
  (chatsForUser s uid).map (processChat s uid)

/-- The unread count the specification defines for viewer `uid` and
conversation `cid`: messages of that conversation with `read = false`
and recipient `uid`. (Stated from the spec, for comparison with
what `fetchChats` computes.) -/
def specUnreadCount (s : Store) (uid cid : String) : Nat :=
  (s.messages.filter
    (fun m => m.chat_id = cid && !m.read && m.receiver_id = uid)).length

/-- Every entry `fetchChats` produces has `unreadCount = 0`: the joined rows
never carry a `receiver_id`, so the filter matches nothing. -/
theorem fetchChats_unreadCount_eq_zero (s : Store) (uid : String) :
    ∀ e ∈ fetchChats s uid, e.unreadCount = 0 := by
  intro e he
  simp only [fetchChats, List.mem_map] at he
  obtain ⟨c, _, rfl⟩ := he
  show (((s.messages.filter (fun m => m.chat_id = c.id)).map
      selectJoinedMsg).filter
      (fun m => !m.read && (m.receiver_id == some uid))).length = 0
  rw [List.length_eq_zero, List.filter_eq_nil_iff]
  intro a ha
  obtain ⟨m, _, rfl⟩ := List.mem_map.1 ha
  simp [selectJoinedMsg]

/-- A store with one chat between "alice" and "bob" and one unread message
addressed to "bob". -/
def storeC1 : Store :=
  { chats := [⟨"c1", "alice", "bob", 10⟩],
    messages := [⟨"m1", "c1", "alice", "bob", "hi", 100, false⟩],
    profiles := [⟨"alice", "Alice"⟩, ⟨"bob", "Bob"⟩] }

/-- C1. For every user V and every conversation in the list produced by the
Conversation Index (fetchChats), the unreadCount field equals the number of
messages in that conversation whose read flag is false and whose recipient
is V. — FALSE on the code: the embedded join selects only
`(content, timestamp, read)`, so the `receiver_id` the unread filter
compares against is `undefined`, and the computed count is always `0`. On a
store holding one unread message addressed to the viewer, `fetchChats`
reports `0` where the specified count is `1`. -/
theorem fetchChats_unreadCount_bug :
    (fetchChats storeC1 "bob").map (fun e => e.unreadCount) = [0] ∧
      specUnreadCount storeC1 "bob" "c1" = 1 := by
  constructor <;> rfl

/-- A chat between two distinct users neither of whom has a profile row. -/
def chatC6 : StoredChat := ⟨"c6", "u1", "u2", 0⟩

/-- A store for the participant-resolution claim: the chat exists but the
profiles table is empty, so every profile lookup fails. -/
def storeC6 : Store := { chats := [chatC6], messages := [], profiles := [] }

/-- C6. For every conversation with participants A and B and viewer V among
them, the participant displayed by the Conversation Index is the participant
that is not V, and on failure to look up that participant's profile the name
shown is the fixed placeholder "Unknown User". -/
theorem processChat_other_participant (s : Store) (uid : String)
    (c : StoredChat) (_hmem : uid = c.user1_id ∨ uid = c.user2_id)
    (hne : c.user1_id ≠ c.user2_id) :
    ((processChat s uid c).participantId = c.user1_id ∨
      (processChat s uid c).participantId = c.user2_id) ∧
    (processChat s uid c).participantId ≠ uid ∧
    (lookupProfile s (processChat s uid c).participantId = none →
      (processChat s uid c).participantName = "Unknown User") := by
  have hdef : (processChat s uid c).participantId =
      if c.user1_id = uid then c.user2_id else c.user1_id := rfl
  have hname : (processChat s uid c).participantName =
      displayName s (if c.user1_id = uid then c.user2_id else c.user1_id) :=
    rfl
  by_cases hcase : c.user1_id = uid
  · rw [hdef, hname, if_pos hcase]
    exact ⟨Or.inr rfl, fun h => hne (hcase.trans h.symm),
      fun hl => by simp [displayName, hl]⟩
  · rw [hdef, hname, if_neg hcase]
    exact ⟨Or.inl rfl, hcase, fun hl => by simp [displayName, hl]⟩

/-- Concrete run of `processChat_other_participant`: viewer "u1" of chat
`chatC6` is shown participant "u2", with placeholder name since "u2" has
no profile row. -/
theorem processChat_other_participant_witness :
    ("u1" = chatC6.user1_id ∨ "u1" = chatC6.user2_id) ∧
    chatC6.user1_id ≠ chatC6.user2_id ∧
    (processChat storeC6 "u1" chatC6).participantId = "u2" ∧
    (processChat storeC6 "u1" chatC6).participantName = "Unknown User" := by
  refine ⟨Or.inl rfl, by decide, rfl, ?_⟩
  exact (processChat_other_participant storeC6 "u1" chatC6 (Or.inl rfl)
    (by decide)).2.2 rfl

/-- A store for the ordering/preview claim: viewer "v" has chat "cA"
(created at 10, messages at timestamps 1 and 100) and chat "cB" (created at
20, one message at timestamp 5). The most recent activity is in "cA", and
"cA"'s most recent message has content "new". -/
def storeC9 : Store :=
  { chats := [⟨"cA", "v", "p", 10⟩, ⟨"cB", "v", "q", 20⟩],
    messages := [⟨"a1", "cA", "p", "v", "old", 1, true⟩,
                 ⟨"b1", "cB", "q", "v", "m", 5, true⟩,
                 ⟨"a2", "cA", "p", "v", "new", 100, true⟩],
    profiles := [⟨"p", "Pat"⟩, ⟨"q", "Quinn"⟩] }

/-- C9 as stated is false on the code: on `storeC9` the list places "cB"
(created later, activity at timestamp 5) before "cA" (activity at
timestamp 100), so it is not ordered by most recent activity; and the
preview shown for "cA" is "old" (timestamp 1), not the most recent
message "new" (timestamp 100). -/
theorem fetchChats_order_preview_cex :
    (fetchChats storeC9 "v").map (fun e => (e.id, e.lastMessage)) =
      [("cB", some "m"), ("cA", some "old")] ∧
    (storeC9.messages.filter (fun m => m.chat_id = "cA")).map
      (fun m => (m.content, m.timestamp)) = [("old", 1), ("new", 100)] ∧
    (storeC9.messages.filter (fun m => m.chat_id = "cB")).map
      (fun m => (m.content, m.timestamp)) = [("m", 5)] := by
  refine ⟨rfl, rfl, rfl⟩

/-- C9 amended: the conversation list is ordered by chat creation time,
most recently created first (not by most recent activity), and each entry's
preview content and timestamp come from the first message of that
conversation in the store's row order (the embedded join requests no
ordering), not necessarily the most recent message. -/
theorem fetchChats_order_and_preview (s : Store) (uid : String) :
    List.Sorted (fun a b => b.created_at ≤ a.created_at)
      (chatsForUser s uid) ∧
    ∀ e ∈ fetchChats s uid,
      e.lastMessage =
        ((s.messages.filter (fun m => m.chat_id = e.id)).head?).map
          (fun m => m.content) ∧
      e.lastMessageTime =
        ((s.messages.filter (fun m => m.chat_id = e.id)).head?).map
          (fun m => m.timestamp) := by
  constructor
  · haveI : IsTotal StoredChat (fun a b => b.created_at ≤ a.created_at) :=
      ⟨fun a b => le_total b.created_at a.created_at⟩
    haveI : IsTrans StoredChat (fun a b => b.created_at ≤ a.created_at) :=
      ⟨fun _ _ _ h1 h2 => le_trans h2 h1⟩
    exact List.sorted_insertionSort _ _
  · intro e he
    simp only [fetchChats, List.mem_map] at he
    obtain ⟨c, _, rfl⟩ := he
    have hid : (processChat s uid c).id = c.id := rfl
    rw [hid]
    constructor
    · show (((s.messages.filter (fun m => m.chat_id = c.id)).map
          selectJoinedMsg).head?).map (fun m => m.content) = _
      rw [List.head?_map, Option.map_map]
      cases (s.messages.filter (fun m => m.chat_id = c.id)).head? <;> rfl
    · show (((s.messages.filter (fun m => m.chat_id = c.id)).map
          selectJoinedMsg).head?).map (fun m => m.timestamp) = _
      rw [List.head?_map, Option.map_map]
      cases (s.messages.filter (fun m => m.chat_id = c.id)).head? <;> rfl

/-- Concrete run of `fetchChats_order_and_preview` on `storeC9`: the entry
for chat "cB" is in the list and its preview is the first stored message of
"cB". -/
theorem fetchChats_order_and_preview_witness :
    processChat storeC9 "v" ⟨"cB", "v", "q", 20⟩ ∈ fetchChats storeC9 "v" ∧
    (processChat storeC9 "v" ⟨"cB", "v", "q", 20⟩).lastMessage =
      ((storeC9.messages.filter
        (fun m => m.chat_id =
          (processChat storeC9 "v" ⟨"cB", "v", "q", 20⟩).id)).head?).map
        (fun m => m.content) := by
  have hmem : processChat storeC9 "v" ⟨"cB", "v", "q", 20⟩ ∈
      fetchChats storeC9 "v" := by
    simp only [fetchChats, chatsForUser]
    refine List.mem_map.2 ⟨⟨"cB", "v", "q", 20⟩, ?_, rfl⟩
    decide
  exact ⟨hmem,
    ((fetchChats_order_and_preview storeC9 "v").2 _ hmem).1⟩

/-- The `MessageType` record as held in the in-memory feed. -/
structure FeedMsg where
  id : String
  senderId : String
  senderName : String
  receiverId : String
  content : String
  timestamp : Nat
  read : Bool
deriving Repr, DecidableEq

/-- The per-message formatting in `fetchMessages`: copy the row fields and
resolve the sender's display name by a secondary profile lookup
(placeholder on failure); `message.read || false` is the row's flag. -/
def formatMsg (s : Store) (m : StoredMessage) : FeedMsg :=
  { id := m.id, senderId := m.sender_id,
    senderName := displayName s m.sender_id,
    receiverId := m.receiver_id, content := m.content,
    timestamp := m.timestamp, read := m.read }

/-- The `messages` query of `fetchMessages`:
`.eq('chat_id', chatId).order('timestamp', ascending true)`. -/
def messagesForChat (s : Store) (chatId : String) : List StoredMessage :=
  (s.messages.filter (fun m => m.chat_id = chatId)).insertionSort
    (fun a b => a.timestamp ≤ b.timestamp)

/-- The batch `update({ read: true }).in('id', ids)`: set the read flag on every
message row whose id is listed; no other column changes. -/
def markRead (s : Store) (ids : List String) : Store :=
  { s with
    messages := s.messages.map
      (fun m => if m.id ∈ ids then { m with read := true } else m) }

/-- One resolution of `fetchMessages chatId` from `Chat.tsx`: format the
conversation's rows and overwrite the feed with them — there is no check
that `chatId` is still the active conversation — then batch-mark as read the
fetched rows with `!msg.read && msg.sender_id !== user.id`. Returns the
updated store and the new feed. -/
def fetchMessages (uid chatId : String) (s : Store) :
    Store × List FeedMsg :=
  let rows := messagesForChat s chatId
  let formatted := rows.map (formatMsg s)
  let unreadIds :=
    (rows.filter (fun m => !m.read && m.sender_id != uid)).map
      (fun m => m.id)
  (markRead s unreadIds, formatted)

/-- Rapid conversation switches: `handleChatSelect` starts one fetch per
selected chat id, and the fetches resolve in the order listed; each
resolution runs the `fetchMessages` body against the store as of that
moment and overwrites the feed. -/
def runResolutions (uid : String) (order : List String)
    (st : Store × List FeedMsg) : Store × List FeedMsg :=
  order.foldl (fun acc cid => fetchMessages uid cid acc.1) st

/-- The mark-read batch changes only the read flag: every row of the updated
store has a row of the original store with the same id and chat reference. -/
theorem mem_markRead_messages (s : Store) (ids : List String) :
    ∀ m ∈ (markRead s ids).messages,
      ∃ m0 ∈ s.messages, m0.id = m.id ∧ m0.chat_id = m.chat_id := by
  intro m hm
  simp only [markRead, List.mem_map] at hm
  obtain ⟨m0, hm0, rfl⟩ := hm
  refine ⟨m0, hm0, ?_, ?_⟩ <;> by_cases h : m0.id ∈ ids <;> simp [h]

/-- Across any sequence of fetch resolutions, store rows keep their id and
chat reference (only read flags are updated). -/
theorem mem_runResolutions_store (uid : String) (os : List String)
    (st : Store × List FeedMsg) :
    ∀ m ∈ (runResolutions uid os st).1.messages,
      ∃ m0 ∈ st.1.messages, m0.id = m.id ∧ m0.chat_id = m.chat_id := by
  induction os generalizing st with
  | nil => exact fun m hm => ⟨m, hm, rfl, rfl⟩
  | cons c rest ih =>
    intro m hm
    have hstep : runResolutions uid (c :: rest) st =
        runResolutions uid rest (fetchMessages uid c st.1) := rfl
    rw [hstep] at hm
    obtain ⟨m1, hm1, hid1, hchat1⟩ := ih (fetchMessages uid c st.1) m hm
    obtain ⟨m0, hm0, hid0, hchat0⟩ := mem_markRead_messages st.1 _ m1 hm1
    exact ⟨m0, hm0, hid0.trans hid1, hchat0.trans hchat1⟩

/-- A store with three chats of viewer "v": "c1" holds message "m1", "c3"
holds message "m3", "c2" is empty. -/
def storeC2 : Store :=
  { chats := [⟨"c1", "v", "p", 1⟩, ⟨"c2", "v", "p", 2⟩,
              ⟨"c3", "v", "p", 3⟩],
    messages := [⟨"m1", "c1", "p", "v", "one", 10, true⟩,
                 ⟨"m3", "c3", "p", "v", "three", 30, true⟩],
    profiles := [⟨"v", "Vic"⟩, ⟨"p", "Pat"⟩] }

/-- C2 as stated is false on the code: selecting c1 then c2 then c3 with
c1's fetch resolving last leaves the feed holding "m1" — a message of "c1",
not of "c3" (whose only message is "m3"). `fetchMessages` applies its result
unconditionally, with no guard against a stale conversation id. -/
theorem fetchMessages_stale_overwrite_cex :
    ((runResolutions "v" ["c2", "c3", "c1"] (storeC2, [])).2).map
      (fun m => m.id) = ["m1"] ∧
    (storeC2.messages.filter (fun m => m.id == "m1")).map
      (fun m => m.chat_id) = ["c1"] ∧
    (storeC2.messages.filter (fun m => m.chat_id == "c3")).map
      (fun m => m.id) = ["m3"] := by
  refine ⟨rfl, rfl, rfl⟩

/-- C2 amended: after rapid selections whose fetches resolve in any order,
the feed holds exactly the fetch result of whichever selection resolved
LAST — every message in it belongs to that conversation — and not
necessarily the most recently selected one. -/
theorem runResolutions_last (uid c : String) (os : List String)
    (st : Store × List FeedMsg) :
    (runResolutions uid (os ++ [c]) st).2 =
      (fetchMessages uid c (runResolutions uid os st).1).2 ∧
    ∀ fm ∈ (runResolutions uid (os ++ [c]) st).2,
      fm.id ∈ (st.1.messages.filter (fun m => m.chat_id == c)).map
        (fun m => m.id) := by
  have hlast : runResolutions uid (os ++ [c]) st =
      fetchMessages uid c (runResolutions uid os st).1 := by
    simp [runResolutions, List.foldl_append]
  refine ⟨by rw [hlast], ?_⟩
  intro fm hfm
  rw [hlast] at hfm
  have hfm2 : fm ∈ (messagesForChat (runResolutions uid os st).1 c).map
      (formatMsg (runResolutions uid os st).1) := hfm
  obtain ⟨m1, hm1, rfl⟩ := List.mem_map.1 hfm2
  have hm1f : m1 ∈ (runResolutions uid os st).1.messages.filter
      (fun m => m.chat_id = c) :=
    (List.perm_insertionSort _ _).mem_iff.1 hm1
  have hm1s := List.mem_filter.1 hm1f
  have hchat : m1.chat_id = c := by simpa using hm1s.2
  obtain ⟨m0, hm0, hid0, hchat0⟩ :=
    mem_runResolutions_store uid os st m1 hm1s.1
  refine List.mem_map.2 ⟨m0, List.mem_filter.2 ⟨hm0, ?_⟩, hid0⟩
  simp [hchat0, hchat]

/-- Concrete run of `runResolutions_last`: with resolution order c2, c3 and
last c1 on `storeC2`, the feed equals c1's fetch result, and its element
(message "m1") belongs to conversation "c1" in the store. -/
theorem runResolutions_last_witness :
    (runResolutions "v" (["c2", "c3"] ++ ["c1"]) (storeC2, [])).2 =
      (fetchMessages "v" "c1"
        (runResolutions "v" ["c2", "c3"] (storeC2, [])).1).2 ∧
    formatMsg storeC2 ⟨"m1", "c1", "p", "v", "one", 10, true⟩ ∈
      (runResolutions "v" (["c2", "c3"] ++ ["c1"]) (storeC2, [])).2 ∧
    (formatMsg storeC2 ⟨"m1", "c1", "p", "v", "one", 10, true⟩).id ∈
      (storeC2.messages.filter (fun m => m.chat_id == "c1")).map
        (fun m => m.id) := by
  have h := runResolutions_last "v" "c1" ["c2", "c3"] (storeC2, [])
  have hmem : formatMsg storeC2 ⟨"m1", "c1", "p", "v", "one", 10, true⟩ ∈
      (runResolutions "v" (["c2", "c3"] ++ ["c1"]) (storeC2, [])).2 := by
    decide
  exact ⟨h.1, hmem, h.2 _ hmem⟩

/-- The outcome of one run of the realtime INSERT handler: the new feed,
the id of the message it batch-marked read (if any), the store after that
update, and the re-fetched conversation list. -/
structure HandlerResult where
  feed : List FeedMsg
  readUpdate : Option String
  store : Store
  chats : List ChatEntry
deriving Repr, DecidableEq

/-- The `messageChannel` INSERT handler from `Chat.tsx`. The channel is
subscribed once, when the page mounts; at that moment `activeChat` is still
null, so the `chat_id=eq...` filter is `undefined` and the handler receives
insert events of EVERY conversation (the effect never re-subscribes when
the active conversation changes). The handler resolves the sender's name,
appends the formatted message to the in-memory feed unconditionally, issues
`update({ read: true })` for the message when the current user is its
recipient and it is unread, and then re-runs `fetchChats`. The `active`
argument records which conversation is currently selected; the handler
never consults it. -/
def messageInsertHandler (uid : String) (_active : Option String)
    (s : Store) (feed : List FeedMsg) (payload : StoredMessage) :
    HandlerResult :=
  let newMessage := formatMsg s payload
  let doMark := payload.receiver_id == uid && !payload.read
  let s2 := if doMark then markRead s [payload.id] else s
  { feed := feed ++ [newMessage],
    readUpdate := if doMark then some payload.id else none,
    store := s2,
    chats := fetchChats s2 uid }

/-- The store before the event of the C3 scenario: conversations "c1"
(with one read message "hello") and "c2" for viewer "v". -/
def storeC3pre : Store :=
  { chats := [⟨"c1", "v", "p", 1⟩, ⟨"c2", "v", "q", 2⟩],
    messages := [⟨"n0", "c1", "p", "v", "hello", 5, true⟩],
    profiles := [⟨"v", "Vic"⟩, ⟨"p", "Pat"⟩, ⟨"q", "Quinn"⟩] }

/-- The new message of the C3 scenario: an unread message of conversation
"c1" addressed to "v", arriving while "c2" is active. -/
def payloadC3 : StoredMessage := ⟨"n1", "c1", "p", "v", "ping", 50, false⟩

/-- The store when the event fires: the row has already been inserted. -/
def storeC3 : Store :=
  { storeC3pre with messages := storeC3pre.messages ++ [payloadC3] }

/-- The feed loaded for the active conversation "c2" (empty: "c2" has no
messages). -/
def feedC2 : List FeedMsg := []

/-- C3 as stated is false on the code: with "c2" active, an insert event
for "c1"'s message changes the in-memory feed (the handler appends the
message unconditionally — the subscription was created while no
conversation was active, hence unfiltered), and "c1"'s entry in the
refreshed conversation list is identical to its entry before the event
(same preview, since the preview is the first stored row, and the same
unread count 0). -/
theorem messageInsertHandler_cex :
    (messageInsertHandler "v" (some "c2") storeC3 feedC2 payloadC3).feed ≠
      feedC2 ∧
    ((messageInsertHandler "v" (some "c2") storeC3 feedC2
        payloadC3).chats.filter (fun e => e.id == "c1")) =
      ((fetchChats storeC3pre "v").filter (fun e => e.id == "c1")) := by
  refine ⟨by decide, rfl⟩

/-- C3 amended: when an insert event for conversation C1 arrives while a
different conversation is active, the handler still appends the formatted
message to the in-memory feed (changing the displayed feed), and replaces
the conversation list with a re-fetch from the store as updated by its own
mark-read call. -/
theorem messageInsertHandler_inactive (uid activeId : String) (s : Store)
    (feed : List FeedMsg) (payload : StoredMessage)
    (_hne : payload.chat_id ≠ activeId) :
    (messageInsertHandler uid (some activeId) s feed payload).feed =
      feed ++ [formatMsg s payload] ∧
    (messageInsertHandler uid (some activeId) s feed payload).feed ≠
      feed ∧
    (messageInsertHandler uid (some activeId) s feed payload).chats =
      fetchChats
        (messageInsertHandler uid (some activeId) s feed payload).store
        uid := by
  refine ⟨rfl, ?_, rfl⟩
  intro h
  have hfeed : (messageInsertHandler uid (some activeId) s feed
      payload).feed = feed ++ [formatMsg s payload] := rfl
  rw [hfeed] at h
  have hlen := congrArg List.length h
  simp at hlen

/-- Concrete run of `messageInsertHandler_inactive` on the C3 scenario
data. -/
theorem messageInsertHandler_inactive_witness :
    payloadC3.chat_id ≠ "c2" ∧
    (messageInsertHandler "v" (some "c2") storeC3 feedC2 payloadC3).feed =
      feedC2 ++ [formatMsg storeC3 payloadC3] ∧
    (messageInsertHandler "v" (some "c2") storeC3 feedC2 payloadC3).feed ≠
      feedC2 := by
  have h := messageInsertHandler_inactive "v" "c2" storeC3 feedC2 payloadC3
    (by decide)
  exact ⟨by decide, h.1, h.2.1⟩

/-- C10. For every message-insert notification whose payload names the
current user as recipient with read flag false, the handler immediately
issues an update setting that message's read flag to true, regardless of
which conversation (if any) is active — so a message can become read
without its conversation ever being opened. -/
theorem messageInsertHandler_marks_incoming_read (uid : String)
    (active : Option String) (s : Store) (feed : List FeedMsg)
    (payload : StoredMessage) (hrecv : payload.receiver_id = uid)
    (hunread : payload.read = false) :
    (messageInsertHandler uid active s feed payload).readUpdate =
      some payload.id ∧
    ∀ m ∈ (messageInsertHandler uid active s feed payload).store.messages,
      m.id = payload.id → m.read = true := by
  have hmark : (payload.receiver_id == uid && !payload.read) = true := by
    rw [hrecv, hunread]
    simp
  constructor
  · show (if payload.receiver_id == uid && !payload.read then
        some payload.id else none) = some payload.id
    rw [hmark]
    rfl
  · intro m hm hid
    have hst : (messageInsertHandler uid active s feed payload).store =
        markRead s [payload.id] := by
      show (if payload.receiver_id == uid && !payload.read then
          markRead s [payload.id] else s) = markRead s [payload.id]
      rw [hmark]
      rfl
    rw [hst] at hm
    simp only [markRead, List.mem_map] at hm
    obtain ⟨m0, _, rfl⟩ := hm
    by_cases h : m0.id ∈ [payload.id]
    · rw [if_pos h]
    · rw [if_neg h] at hid ⊢
      exact absurd (by simp [hid]) h

/-- Concrete run of `messageInsertHandler_marks_incoming_read`: the C3
payload is addressed to "v" and unread, and the handler issues the read
update for it even though "c2" is the active conversation. -/
theorem messageInsertHandler_marks_incoming_read_witness :
    payloadC3.receiver_id = "v" ∧ payloadC3.read = false ∧
    (messageInsertHandler "v" (some "c2") storeC3 feedC2
      payloadC3).readUpdate = some payloadC3.id := by
  refine ⟨rfl, rfl, ?_⟩
  exact (messageInsertHandler_marks_incoming_read "v" (some "c2") storeC3
    feedC2 payloadC3 rfl rfl).1

/-- The `markMessagesAsRead` closure of the `ChatBox` mark-as-read effect: when a
user is signed in, the loaded feed is nonempty and the chat id is truthy,
collect the messages with `!msg.read && msg.senderId !== user.id` and, when
there are any, issue their ids as ONE batched
`update({ read: true }).in('id', messageIds)` call; otherwise make no call.
Returns the id set of the single batch, if one is issued. -/
def markMessagesAsRead (user : Option String) (chatId : String)
    (messages : List FeedMsg) : Option (List String) :=
  match user with
  | none => none
  | some uid =>
    if 0 < messages.length ∧ chatId ≠ "" then
      let unreadMessages :=
        messages.filter (fun m => !m.read && m.senderId != uid)
      if 0 < unreadMessages.length then
        some (unreadMessages.map (fun m => m.id))
      else none
    else none

/-- Membership in the ordered per-conversation query result is membership
among the store's rows of that conversation. -/
theorem mem_messagesForChat (s : Store) (cid : String)
    (m : StoredMessage) :
    m ∈ messagesForChat s cid ↔ m ∈ s.messages ∧ m.chat_id = cid := by
  unfold messagesForChat
  rw [(List.perm_insertionSort _ _).mem_iff, List.mem_filter]
  simp

/-- If the batch covers every unread message of the conversation addressed
to the viewer, the batch update brings the spec-defined unread count
to 0. -/
theorem specUnreadCount_markRead_zero (s : Store) (uid cid : String)
    (ids : List String)
    (hcover : ∀ m ∈ s.messages, m.chat_id = cid → m.read = false →
      m.receiver_id = uid → m.id ∈ ids) :
    specUnreadCount (markRead s ids) uid cid = 0 := by
  rw [specUnreadCount, List.length_eq_zero, List.filter_eq_nil_iff]
  intro m hm
  have hm2 : m ∈ s.messages.map
      (fun m1 => if m1.id ∈ ids then { m1 with read := true } else m1) :=
    hm
  obtain ⟨m0, hm0, rfl⟩ := List.mem_map.1 hm2
  by_cases h : m0.id ∈ ids
  · rw [if_pos h]
    simp
  · rw [if_neg h]
    intro hpred
    simp only [Bool.and_eq_true, decide_eq_true_eq,
      Bool.not_eq_true'] at hpred
    exact h (hcover m0 hm0 hpred.1.1 hpred.1.2 hpred.2)

/-- C4. When the Read-State Marker fires for viewer `uid` on the loaded
message set of conversation `cid` (a two-party conversation with peer
`pid`) containing at least one unread message addressed to `uid`, it issues
exactly one batched update whose id set is exactly the loaded messages
addressed to `uid` with `read = false`; applying that update leaves the
conversation's unread count, as the spec defines it, at 0. (The code
selects on `senderId ≠ uid`; in a two-party conversation this is the same
set as `receiver_id = uid`.) -/
theorem markMessagesAsRead_batch (s : Store) (uid pid cid : String)
    (hcid : cid ≠ "") (hpid : pid ≠ uid)
    (htwo : ∀ m ∈ s.messages, m.chat_id = cid →
      (m.sender_id = uid ∧ m.receiver_id = pid) ∨
      (m.sender_id = pid ∧ m.receiver_id = uid))
    (hunread : ∃ m ∈ s.messages,
      m.chat_id = cid ∧ m.read = false ∧ m.receiver_id = uid) :
    markMessagesAsRead (some uid) cid
      ((messagesForChat s cid).map (formatMsg s)) =
      some (((messagesForChat s cid).filter
        (fun m => !m.read && m.receiver_id == uid)).map (fun m => m.id)) ∧
    specUnreadCount
      (markRead s (((messagesForChat s cid).filter
        (fun m => !m.read && m.receiver_id == uid)).map (fun m => m.id)))
      uid cid = 0 := by
  obtain ⟨w, hw, hwchat, hwread, hwrecv⟩ := hunread
  have hwrow : w ∈ messagesForChat s cid :=
    (mem_messagesForChat s cid w).2 ⟨hw, hwchat⟩
  have hwpred : (!w.read && w.receiver_id == uid) = true := by
    simp [hwread, hwrecv]
  have hwfilt : w ∈ (messagesForChat s cid).filter
      (fun m => !m.read && m.receiver_id == uid) :=
    List.mem_filter.2 ⟨hwrow, hwpred⟩
  have hfilter : ((messagesForChat s cid).map (formatMsg s)).filter
      (fun fm => !fm.read && fm.senderId != uid) =
      ((messagesForChat s cid).filter
        (fun m => !m.read && m.receiver_id == uid)).map (formatMsg s) := by
    rw [List.filter_map]
    congr 1
    apply List.filter_congr
    intro m hm
    have hmem := (mem_messagesForChat s cid m).1 hm
    rcases htwo m hmem.1 hmem.2 with ⟨hs, hr⟩ | ⟨hs, hr⟩
    · simp [Function.comp, formatMsg, hs, hr, hpid]
    · simp [Function.comp, formatMsg, hs, hr, hpid]
  constructor
  · show (if 0 < ((messagesForChat s cid).map (formatMsg s)).length ∧
        cid ≠ "" then _ else none) = _
    rw [if_pos ⟨by
      rw [List.length_map]
      exact List.length_pos.2 (List.ne_nil_of_mem hwrow), hcid⟩]
    rw [hfilter]
    rw [if_pos (by
      rw [List.length_map]
      exact List.length_pos.2 (List.ne_nil_of_mem hwfilt))]
    rw [List.map_map]
    exact congrArg some (List.map_congr_left (fun m _ => rfl))
  · apply specUnreadCount_markRead_zero
    intro m0 hm0 hchat hread hrecv
    refine List.mem_map.2 ⟨m0, List.mem_filter.2
      ⟨(mem_messagesForChat s cid m0).2 ⟨hm0, hchat⟩, ?_⟩, rfl⟩
    simp [hread, hrecv]

/-- A store for the Read-State Marker scenario: viewer "v" has three
unread messages from peer "p" in conversation "c1". -/
def storeC4 : Store :=
  { chats := [⟨"c1", "v", "p", 1⟩],
    messages := [⟨"w1", "c1", "p", "v", "one", 10, false⟩,
                 ⟨"w2", "c1", "p", "v", "two", 20, false⟩,
                 ⟨"w3", "c1", "p", "v", "three", 30, false⟩],
    profiles := [⟨"v", "Vic"⟩, ⟨"p", "Pat"⟩] }

/-- Concrete run of `markMessagesAsRead_batch` on `storeC4`: one batch
containing exactly the three unread message ids, and unread count 0
afterwards. -/
theorem markMessagesAsRead_batch_witness :
    markMessagesAsRead (some "v") "c1"
      ((messagesForChat storeC4 "c1").map (formatMsg storeC4)) =
      some ["w1", "w2", "w3"] ∧
    specUnreadCount (markRead storeC4 ["w1", "w2", "w3"]) "v" "c1" = 0 := by
  have h := markMessagesAsRead_batch storeC4 "v" "p" "c1" (by decide)
    (by decide) (by decide) (by decide)
  exact ⟨h.1, h.2⟩

/-- The `setTimeout` delay of the ChatBox mark-as-read effect. -/
def markAsReadDelay : Nat := 500

/-- The debounce mechanism of the mark-as-read effect: each change to the
message set at time `t` first cancels the pending timer (the effect cleanup
runs `clearTimeout`) and then schedules `markMessagesAsRead` at
`t + delay`; a scheduled timer fires unless a later change occurs strictly
before its deadline. Given the ascending change times, returns the times at
which the marker actually runs. -/
def debounceFireTimes (delay : Nat) : List Nat → List Nat
  | [] => []
  | [t] => [t + delay]
  | t :: t2 :: rest =>
    (if t + delay ≤ t2 then [t + delay] else []) ++
      debounceFireTimes delay (t2 :: rest)

/-- C5. For every burst of N ≥ 1 changes to the loaded message set that all
arrive within the debounce window of one another (each gap strictly under
the 500 ms delay), the Read-State Marker runs exactly once, at the last
change's time plus the full delay — each change restarts the full delay,
and the N changes produce one call, not N. -/
theorem markAsRead_debounce_single (t : Nat) (rest : List Nat)
    (hwin : List.Chain' (fun a b => b < a + markAsReadDelay) (t :: rest)) :
    debounceFireTimes markAsReadDelay (t :: rest) =
      [rest.getLastD t + markAsReadDelay] ∧
    (debounceFireTimes markAsReadDelay (t :: rest)).length = 1 := by
  suffices h : debounceFireTimes markAsReadDelay (t :: rest) =
      [rest.getLastD t + markAsReadDelay] by
    exact ⟨h, by rw [h]; rfl⟩
  induction rest generalizing t with
  | nil => rfl
  | cons t2 rest2 ih =>
    have h12 := (List.chain'_cons.1 hwin).1
    have hrest := (List.chain'_cons.1 hwin).2
    show (if t + markAsReadDelay ≤ t2 then [t + markAsReadDelay]
        else []) ++ debounceFireTimes markAsReadDelay (t2 :: rest2) = _
    rw [if_neg (not_le.2 h12), List.nil_append, ih t2 hrest,
      List.getLastD_cons t t2 rest2]

/-- Concrete run of `markAsRead_debounce_single`: three changes at times 0,
100, 200 (gaps under 500) produce exactly one marker run, at time 700. -/
theorem markAsRead_debounce_single_witness :
    List.Chain' (fun a b => b < a + markAsReadDelay) [0, 100, 200] ∧
    debounceFireTimes markAsReadDelay [0, 100, 200] = [700] ∧
    (debounceFireTimes markAsReadDelay [0, 100, 200]).length = 1 := by
  have hchain : List.Chain' (fun a b => b < a + markAsReadDelay)
      [0, 100, 200] := by
    rw [List.chain'_cons, List.chain'_cons]
    exact ⟨by norm_num [markAsReadDelay], by norm_num [markAsReadDelay],
      List.chain'_singleton 200⟩
  have h := markAsRead_debounce_single 0 [100, 200] hchain
  exact ⟨hchain, h.1, h.2⟩

/-- The `FileAttachment` record from `lib/types`: metadata staged by the composer's
file picker (`handleFileChange` builds it from the chosen file and an
object URL). -/
structure FileAttachment where
  id : String
  name : String
  type : String
  url : String
  size : Nat
deriving Repr, DecidableEq

/-- The composer's component state: the draft text and the staged
attachment preview. -/
structure ComposerState where
  newMessage : String
  filePreview : Option FileAttachment
deriving Repr, DecidableEq

/-- The outcome of one submit: the `(content, attachment)` pair passed up
to `onSendMessage`, if any, and the component state afterwards. -/
structure SubmitResult where
  sent : Option (String × Option FileAttachment)
  state : ComposerState
deriving Repr, DecidableEq

/-- The whitespace characters JS `String.prototype.trim` strips, as used on
composer drafts: space, tab, line feed, carriage return. -/
def isJsWhitespace (c : Char) : Bool :=
  c = ' ' || c = '\t' || c = '\n' || c = '\r'

/-- JS `String.prototype.trim`: strip leading and trailing whitespace. -/
def jsTrim (str : String) : String :=
  String.mk
    (((str.toList.dropWhile isJsWhitespace).reverse.dropWhile
      isJsWhitespace).reverse)

/-- The `handleSendMessage` submit handler of `ChatBox`: if the trimmed draft is nonempty or
an attachment is staged, pass the (untrimmed) draft and the staged
attachment up to `onSendMessage` and clear both fields; otherwise do
nothing at all. -/
def ChatBox.handleSendMessage (st : ComposerState) : SubmitResult :=
  if jsTrim st.newMessage ≠ "" ∨ st.filePreview.isSome then
    { sent := some (st.newMessage, st.filePreview),
      state := { newMessage := "", filePreview := none } }
  else
    { sent := none, state := st }

/-- C7. For every submission attempt where the text content is empty or
whitespace-only (its trim is empty) and no attachment is staged, the
Composer passes nothing to `onSendMessage` — so no store insert happens —
and leaves the component state unchanged: a no-op, not an error. -/
theorem composer_empty_noop (st : ComposerState)
    (htrim : jsTrim st.newMessage = "") (hfile : st.filePreview = none) :
    (ChatBox.handleSendMessage st).sent = none ∧
    (ChatBox.handleSendMessage st).state = st := by
  have hcond : ¬(jsTrim st.newMessage ≠ "" ∨
      st.filePreview.isSome = true) := by
    rintro (h | h)
    · exact h htrim
    · rw [hfile] at h
      exact Bool.false_ne_true h
  unfold ChatBox.handleSendMessage
  rw [if_neg hcond]
  exact ⟨rfl, rfl⟩

/-- A composer holding a whitespace-only draft and no staged attachment. -/
def stC7 : ComposerState := ⟨"   ", none⟩

/-- Concrete run of `composer_empty_noop` on a whitespace-only draft. -/
theorem composer_empty_noop_witness :
    jsTrim stC7.newMessage = "" ∧ stC7.filePreview = none ∧
    (ChatBox.handleSendMessage stC7).sent = none ∧
    (ChatBox.handleSendMessage stC7).state = stC7 := by
  have h := composer_empty_noop stC7 (by decide) rfl
  exact ⟨by decide, rfl, h.1, h.2⟩

/-- The message row `handleSendMessage` in `Chat.tsx` inserts. -/
structure NewMessageRecord where
  chat_id : String
  sender_id : String
  receiver_id : String
  content : String
  read : Bool
deriving Repr, DecidableEq

/-- The `handleSendMessage` callback of `Chat.tsx`: requires a signed-in user and an
active conversation (otherwise it returns without inserting); builds the
inserted row from the active conversation's id, the current user as sender,
the conversation's resolved participant as receiver, the given content and
`read: false`. The staged attachment is accepted as an argument but no
field of the row is built from it (the source comments that attachments
would be handled separately). -/
def ChatPage.handleSendMessage (user : Option String)
    (activeChat : Option ChatEntry) (content : String)
    (_attachment : Option FileAttachment) : Option NewMessageRecord :=
  match user, activeChat with
  | some uid, some chat =>
      some { chat_id := chat.id, sender_id := uid,
             receiver_id := chat.participantId, content := content,
             read := false }
  | _, _ => none

/-- The resolved participant of a conversation entry is never the viewer
(for distinct participants). -/
theorem participantId_ne_viewer (s : Store) (uid : String)
    (c : StoredChat) (hne : c.user1_id ≠ c.user2_id) :
    (processChat s uid c).participantId ≠ uid := by
  have hdef : (processChat s uid c).participantId =
      if c.user1_id = uid then c.user2_id else c.user1_id := rfl
  rw [hdef]
  by_cases hcase : c.user1_id = uid
  · rw [if_pos hcase]
    exact fun h => hne (hcase.trans h.symm)
  · rw [if_neg hcase]
    exact hcase

/-- The resolved participant of a conversation entry is one of the two
stored participants. -/
theorem participantId_mem (s : Store) (uid : String) (c : StoredChat) :
    (processChat s uid c).participantId = c.user1_id ∨
    (processChat s uid c).participantId = c.user2_id := by
  have hdef : (processChat s uid c).participantId =
      if c.user1_id = uid then c.user2_id else c.user1_id := rfl
  rw [hdef]
  by_cases hcase : c.user1_id = uid
  · rw [if_pos hcase]
    exact Or.inr rfl
  · rw [if_neg hcase]
    exact Or.inl rfl

/-- C8. For every accepted submission by a signed-in user with an active
conversation (an entry the Conversation Index produced for a two-party
chat), the inserted record has exactly: the active conversation's id,
sender = the current user, receiver = the conversation's other participant
(one of the two stored participants, and not the viewer), the given
content, and `read = false`; the staged attachment, whatever it is, does
not influence the record. -/
theorem handleSendMessage_record_fields (s : Store) (uid content : String)
    (ch : StoredChat) (a : Option FileAttachment)
    (hne : ch.user1_id ≠ ch.user2_id)
    (_hmem : uid = ch.user1_id ∨ uid = ch.user2_id) :
    ChatPage.handleSendMessage (some uid) (some (processChat s uid ch))
      content a =
      some { chat_id := ch.id, sender_id := uid,
             receiver_id := (processChat s uid ch).participantId,
             content := content, read := false } ∧
    (processChat s uid ch).participantId ≠ uid ∧
    ((processChat s uid ch).participantId = ch.user1_id ∨
      (processChat s uid ch).participantId = ch.user2_id) ∧
    ∀ a2 : Option FileAttachment,
      ChatPage.handleSendMessage (some uid) (some (processChat s uid ch))
        content a2 =
      ChatPage.handleSendMessage (some uid) (some (processChat s uid ch))
        content a :=
  ⟨rfl, participantId_ne_viewer s uid ch hne, participantId_mem s uid ch,
    fun _ => rfl⟩

/-- The conversation and staged attachment of the C8 scenario. -/
def chatC8 : StoredChat := ⟨"c8", "v", "p", 0⟩

/-- A staged attachment, as `handleFileChange` would build it. -/
def attC8 : FileAttachment :=
  ⟨"file-1", "doc.pdf", "application/pdf", "blob:doc", 1234⟩

/-- A store holding the C8 conversation. -/
def storeC8 : Store :=
  { chats := [chatC8], messages := [], profiles := [⟨"p", "Pat"⟩] }

/-- Concrete run of `handleSendMessage_record_fields`: the row inserted for
content "hello" with a staged attachment names conversation "c8", sender
"v", receiver "p", `read = false`, and equals the row inserted with no
attachment staged. -/
theorem handleSendMessage_record_fields_witness :
    chatC8.user1_id ≠ chatC8.user2_id ∧
    ("v" = chatC8.user1_id ∨ "v" = chatC8.user2_id) ∧
    ChatPage.handleSendMessage (some "v")
      (some (processChat storeC8 "v" chatC8)) "hello" (some attC8) =
      some { chat_id := "c8", sender_id := "v", receiver_id := "p",
             content := "hello", read := false } ∧
    ChatPage.handleSendMessage (some "v")
      (some (processChat storeC8 "v" chatC8)) "hello" none =
    ChatPage.handleSendMessage (some "v")
      (some (processChat storeC8 "v" chatC8)) "hello" (some attC8) := by
  have h := handleSendMessage_record_fields storeC8 "v" "hello" chatC8
    (some attC8) (by decide) (Or.inl rfl)
  exact ⟨by decide, Or.inl rfl, h.1, h.2.2.2 none⟩
